import Mathlib

/-!
Shallow embedding of the check-in-service repository (Go) in Lean 4.

Conventions used throughout:
- wall-clock instants and durations are modelled as `Int` (the circuit
  breaker, time records) or `ℚ` seconds (the rate limiter, whose Go
  implementation works in fractional seconds);
- Go `float64` arithmetic is modelled as exact rational arithmetic;
- database tables are modelled as Lean lists of rows, SQL `UPDATE ... WHERE`
  as a `List.map` that rewrites the matching rows, and a transaction as an
  explicit rollback-to-input on any failure;
- fallible external effects (publishing, the legacy HTTP call, JSON
  decoding, transaction failures) are modelled by explicit oracles passed
  as parameters.
-/

/-- The three states of `CircuitState` in circuit_breaker.go. -/
inductive CircuitState where
  | stateClosed
  | stateOpen
  | stateHalf
  deriving DecidableEq, Repr

/-- The `CircuitBreaker` struct of circuit_breaker.go (the mutex is a
concurrency artifact and has no sequential content). -/
structure CircuitBreaker where
  state : CircuitState
  failureCount : Nat
  successCount : Nat
  lastFailureTime : Int
  failureThreshold : Nat
  successThreshold : Nat
  timeout : Int
  deriving DecidableEq, Repr

/-- The `NewCircuitBreaker` constructor: Closed, zero counters. -/
def newCircuitBreaker (failureThreshold successThreshold : Nat) (timeout : Int) :
    CircuitBreaker :=
  { state := CircuitState.stateClosed
    failureCount := 0
    successCount := 0
    lastFailureTime := 0
    failureThreshold := failureThreshold
    successThreshold := successThreshold
    timeout := timeout }

/-- The `RecordSuccess` method: reset the failure count; while HalfOpen,
increment the success count and close once it reaches the threshold. -/
def recordSuccess (cb : CircuitBreaker) : CircuitBreaker :=
  let cb1 := { cb with failureCount := 0 }
  if cb1.state = CircuitState.stateHalf then
    let sc := cb1.successCount + 1
    if cb1.successThreshold ≤ sc then
      { cb1 with state := CircuitState.stateClosed, successCount := 0 }
    else
      { cb1 with successCount := sc }
  else
    cb1

/-- The `RecordFailure` method: increment the failure count, note the time,
reset the success count, and open once the count reaches the threshold. -/
def recordFailure (now : Int) (cb : CircuitBreaker) : CircuitBreaker :=
  let fc := cb.failureCount + 1
  let cb1 := { cb with failureCount := fc, lastFailureTime := now, successCount := 0 }
  if cb1.failureThreshold ≤ fc then
    { cb1 with state := CircuitState.stateOpen }
  else
    cb1

/-- The `CanExecute` method. The Bool is the allowed flag; the returned
breaker reflects the Open-to-HalfOpen transition performed when the reset
timeout has strictly elapsed (`time.Since(lastFailureTime) > timeout`). -/
def canExecute (now : Int) (cb : CircuitBreaker) : CircuitBreaker × Bool :=
  match cb.state with
  | CircuitState.stateClosed => (cb, true)
  | CircuitState.stateOpen =>
    if cb.timeout < now - cb.lastFailureTime then
      ({ cb with state := CircuitState.stateHalf, failureCount := 0 }, true)
    else
      (cb, false)
  | CircuitState.stateHalf => (cb, true)

/-- A sequence of `RecordFailure` calls, one per listed timestamp. -/
def recordFailures (ts : List Int) (cb : CircuitBreaker) : CircuitBreaker :=
  ts.foldl (fun c t => recordFailure t c) cb

/-- A sequence of n consecutive `RecordSuccess` calls. -/
def recordSuccesses : Nat → CircuitBreaker → CircuitBreaker
  | 0, cb => cb
  | n + 1, cb => recordSuccesses n (recordSuccess cb)

/- ===================== Rate limiter (rate_limiter.go) ================== -/

/-- The `RateLimiter` struct of rate_limiter.go. Times are rational seconds;
the Go float64 token arithmetic is modelled exactly over ℚ. -/
structure RateLimiter where
  tokens : ℚ
  maxTokens : ℚ
  refillRate : ℚ
  lastRefillAt : ℚ
  deriving DecidableEq, Repr

/-- The `NewRateLimiter` constructor: full bucket, refill rate of
`requestsPerMinute / 60` tokens per second. -/
def newRateLimiter (requestsPerMinute : Nat) (now : ℚ) : RateLimiter :=
  { tokens := requestsPerMinute
    maxTokens := requestsPerMinute
    refillRate := (requestsPerMinute : ℚ) / 60
    lastRefillAt := now }

/-- Observable outcome of one pass through the body of `WaitForToken`:
either a token is granted with the returned wait, or the call fails without
blocking, or the call sleeps `sleepDuration` (the computed wait plus the
100 ms buffer in the code) and retries with `remainingBudget`. -/
inductive WaitStep where
  | granted (wait : ℚ)
  | rejected (required maxWait : ℚ)
  | sleepRetry (waitDuration sleepDuration remainingBudget : ℚ)
  deriving DecidableEq, Repr

/-- One pass through the body of `WaitForToken`: lazy refill from elapsed
time, then immediate grant, rejection, or sleep-and-retry. -/
def waitForTokenStep (now maxWait : ℚ) (rl : RateLimiter) : RateLimiter × WaitStep :=
  let elapsed := now - rl.lastRefillAt
  let tokensToAdd := elapsed * rl.refillRate
  let rl1 := { rl with tokens := min (rl.tokens + tokensToAdd) rl.maxTokens, lastRefillAt := now }
  if 1 ≤ rl1.tokens then
    ({ rl1 with tokens := rl1.tokens - 1 }, WaitStep.granted 0)
  else
    let tokenDeficit := 1 - rl1.tokens
    let waitSeconds := tokenDeficit / rl1.refillRate
    if maxWait < waitSeconds then
      (rl1, WaitStep.rejected waitSeconds maxWait)
    else
      (rl1, WaitStep.sleepRetry waitSeconds (waitSeconds + 1 / 10) (maxWait - waitSeconds))

/-- The recursive `WaitForToken`, with explicit fuel for the recursion.
Sleeping advances the clock by the sleep duration; the returned rational is
the total wait reported by the call, the Bool is success. -/
def waitForToken : Nat → ℚ → ℚ → RateLimiter → RateLimiter × ℚ × Bool
  | 0, _, _, rl => (rl, 0, false)
  | fuel + 1, now, maxWait, rl =>
    match (waitForTokenStep now maxWait rl).2 with
    | WaitStep.granted w => ((waitForTokenStep now maxWait rl).1, w, true)
    | WaitStep.rejected _ _ => ((waitForTokenStep now maxWait rl).1, 0, false)
    | WaitStep.sleepRetry _w s budget =>
      ((waitForToken fuel (now + s) budget (waitForTokenStep now maxWait rl).1).1,
        s + (waitForToken fuel (now + s) budget (waitForTokenStep now maxWait rl).1).2.1,
        (waitForToken fuel (now + s) budget (waitForTokenStep now maxWait rl).1).2.2)

/-- n immediate calls (all at the same instant), collecting each outcome. -/
def stepN : Nat → ℚ → ℚ → RateLimiter → RateLimiter × List WaitStep
  | 0, _, _, rl => (rl, [])
  | n + 1, now, maxWait, rl =>
    let r := waitForTokenStep now maxWait rl
    let rest := stepN n now maxWait r.1
    (rest.1, r.2 :: rest.2)

/- ============ Retry loop of HandleCheckedOut (labor_cost_handler.go) === -/

/-- The `RetryConfig` struct of labor_cost_handler.go. Durations are Int
nanoseconds, the float64 multiplier is an exact rational. -/
structure RetryConfig where
  maxAttempts : Nat
  initialBackoff : Int
  maxBackoff : Int
  backoffMultiplier : ℚ
  deriving DecidableEq, Repr

/-- The retry configuration installed by `NewLaborCostReporter`:
5 attempts, 1 s initial backoff, 30 s maximum, multiplier 2. -/
def newLaborCostReporterRetryConfig : RetryConfig :=
  { maxAttempts := 5
    initialBackoff := 1000000000
    maxBackoff := 30000000000
    backoffMultiplier := 2 }

/-- One backoff update of the loop:
`backoff = time.Duration(float64(backoff)*multiplier)` (truncation of a
positive product modelled as the floor) followed by the cap at maxBackoff. -/
def nextBackoff (mult : ℚ) (maxBackoff : Int) (backoff : Int) : Int :=
  let nb := Rat.floor ((backoff : ℚ) * mult)
  if maxBackoff < nb then maxBackoff else nb

/-- The retry loop of `HandleCheckedOut`. `op calls` is the success of the
`RecordLaborCost` call number `calls` (0-based); `r` is the remaining
attempt budget `maxAttempts - attempt`; `backoff` the current backoff;
`slept` accumulates the time slept so far. Returns success and total sleep. -/
def retryExec (op : Nat → Bool) (mult : ℚ) (maxBackoff : Int) :
    Nat → Nat → Int → Int → Bool × Int
  | _, 0, _, slept => (false, slept)
  | calls, r + 1, backoff, slept =>
    if op calls then (true, slept)
    else if r = 0 then (false, slept)
    else retryExec op mult maxBackoff (calls + 1) r
      (nextBackoff mult maxBackoff backoff) (slept + backoff)

/-- Sum of the first k backoff intervals actually incurred, starting from
backoff b: each subsequent interval is the multiplied previous one, capped
at maxBackoff. -/
def backoffChainSum (mult : ℚ) (maxBackoff : Int) : Nat → Int → Int
  | 0, _ => 0
  | k + 1, b => b + backoffChainSum mult maxBackoff k (nextBackoff mult maxBackoff b)

/- ===================== Domain events (events.go) ======================= -/

/-- The `EventTypeEmployeeCheckedIn` constant. -/
def eventTypeEmployeeCheckedIn : String := "EmployeeCheckedIn"

/-- The `EventTypeEmployeeCheckedOut` constant. -/
def eventTypeEmployeeCheckedOut : String := "EmployeeCheckedOut"

/-- The `EventHeader` struct common to all domain events. -/
structure EventHeader where
  eventId : String
  eventType : String
  version : Nat
  timestamp : Int
  deriving DecidableEq, Repr

/-- The `EmployeeCheckedInEvent` struct. -/
structure EmployeeCheckedInEvent where
  header : EventHeader
  employeeId : String
  checkInAt : Int
  recordId : String
  deriving DecidableEq, Repr

/-- The `EmployeeCheckedOutEvent` struct. -/
structure EmployeeCheckedOutEvent where
  header : EventHeader
  employeeId : String
  checkInAt : Int
  checkOutAt : Int
  hoursWorked : ℚ
  recordId : String
  deriving DecidableEq, Repr

/-- The `DomainEvent` interface as the closed sum of its two implementors. -/
inductive DomainEvent where
  | checkedIn (e : EmployeeCheckedInEvent)
  | checkedOut (e : EmployeeCheckedOutEvent)
  deriving DecidableEq, Repr

/-- The `EventType()` method of each event. -/
def DomainEvent.eventType : DomainEvent → String
  | DomainEvent.checkedIn _ => eventTypeEmployeeCheckedIn
  | DomainEvent.checkedOut _ => eventTypeEmployeeCheckedOut

/- ===================== Time records (time_record.go) =================== -/

/-- The `TimeRecordStatus` values CHECKED_IN and CHECKED_OUT. -/
inductive TimeRecordStatus where
  | statusCheckedIn
  | statusCheckedOut
  deriving DecidableEq, Repr

/-- The `TimeRecord` entity. Times are Int seconds; HoursWorked is the
float64 hour count modelled as an exact rational. -/
structure TimeRecord where
  id : String
  employeeId : String
  checkInAt : Int
  checkOutAt : Option Int
  status : TimeRecordStatus
  hoursWorked : ℚ
  deriving DecidableEq, Repr

/-- The `NewTimeRecord` constructor; the generated UUID is passed in as
`recId`. -/
def newTimeRecord (recId : String) (now : Int) (employeeId : String) :
    Except String TimeRecord :=
  if employeeId = "" then
    Except.error "employee ID cannot be empty"
  else
    Except.ok
      { id := recId, employeeId := employeeId, checkInAt := now,
        checkOutAt := none, status := TimeRecordStatus.statusCheckedIn,
        hoursWorked := 0 }

/-- The `CheckOut` method of `TimeRecord`: fails if already checked out,
otherwise stamps the check-out time, flips the status and computes the
hours worked (seconds / 3600). -/
def TimeRecord.checkOut (now : Int) (tr : TimeRecord) : Except String TimeRecord :=
  if tr.status = TimeRecordStatus.statusCheckedOut then
    Except.error "already checked out"
  else
    Except.ok
      { tr with
        checkOutAt := some now
        status := TimeRecordStatus.statusCheckedOut
        hoursWorked := ((now - tr.checkInAt : Int) : ℚ) / 3600 }

/- ============== Outbox rows and queries (postgres repositories) ======== -/

/-- One row of the outbox_events table (`repositories.OutboxEvent` plus the
published_at and last_error columns). The payload column holds the
JSON-marshalled event; it is modelled by the event value itself. -/
structure OutboxEvent where
  id : String
  eventType : String
  aggregateId : String
  payload : DomainEvent
  createdAt : Int
  published : Bool
  publishedAt : Option Int
  retryCount : Nat
  lastError : Option String
  deriving DecidableEq, Repr

/-- The ORDER BY created_at ASC relation of GetUnpublishedEvents. -/
def createdBefore (a b : OutboxEvent) : Prop := a.createdAt ≤ b.createdAt

instance : DecidableRel createdBefore :=
  fun a b => inferInstanceAs (Decidable (a.createdAt ≤ b.createdAt))

instance : IsTotal OutboxEvent createdBefore :=
  ⟨fun a b => Int.le_total a.createdAt b.createdAt⟩

instance : IsTrans OutboxEvent createdBefore :=
  ⟨fun _ _ _ => Int.le_trans⟩

/-- `GetUnpublishedEvents(limit)`: SELECT rows WHERE published = FALSE AND
event_type = EventTypeEmployeeCheckedOut (the type is hard-coded in the
query) ORDER BY created_at ASC LIMIT limit. The FOR UPDATE SKIP LOCKED
clause is a cross-instance locking concern with no sequential content. -/
def getUnpublishedEvents (limit : Nat) (rows : List OutboxEvent) : List OutboxEvent :=
  ((rows.filter
      (fun e => !e.published && e.eventType == eventTypeEmployeeCheckedOut)).insertionSort
    createdBefore).take limit

/-- `MarkAsPublished(eventID)`: UPDATE outbox_events SET published = TRUE,
published_at = now WHERE id = eventID. -/
def markAsPublished (now : Int) (eventId : String) (rows : List OutboxEvent) :
    List OutboxEvent :=
  rows.map (fun e =>
    if e.id = eventId then { e with published := true, publishedAt := some now } else e)

/-- `IncrementRetryCount(eventID, errorMsg)`: UPDATE outbox_events SET
retry_count = retry_count + 1, last_error = errorMsg WHERE id = eventID. -/
def incrementRetryCount (eventId errorMsg : String) (rows : List OutboxEvent) :
    List OutboxEvent :=
  rows.map (fun e =>
    if e.id = eventId then
      { e with retryCount := e.retryCount + 1, lastError := some errorMsg }
    else e)

/- ============== Database state and SaveWithEvent ======================= -/

/-- The two tables touched by this core. -/
structure DBState where
  timeRecords : List TimeRecord
  outboxEvents : List OutboxEvent
  deriving DecidableEq, Repr

/-- The INSERT ... ON CONFLICT (id) DO UPDATE of the time_records table:
update check_out_at, status and hours_worked of the existing row, or append
a fresh row. -/
def upsertTimeRecord (r : TimeRecord) (rs : List TimeRecord) : List TimeRecord :=
  if rs.any (fun x => x.id == r.id) then
    rs.map (fun x =>
      if x.id = r.id then
        { x with
          checkOutAt := r.checkOutAt
          status := r.status
          hoursWorked := r.hoursWorked }
      else x)
  else
    rs ++ [r]

/-- Failure oracle for one run of `SaveWithEvent`, naming the step of the
transaction that fails (if any), in the order the code performs them. -/
inductive TxOutcome where
  | commitOk
  | failBegin
  | failRecordInsert
  | failMarshal
  | failOutboxInsert
  | failCommit
  deriving DecidableEq, Repr

/-- `SaveWithEvent`: one transaction writing the time record upsert and the
outbox row insert, committed together. Writes made inside the transaction
are invisible unless the commit succeeds (the deferred Rollback), so on any
failing step the returned state is the input state; on commit both writes
are applied. The generated outbox UUID is passed in as `outboxId`. -/
def saveWithEvent (outboxId : String) (now : Int) (tx : TxOutcome)
    (record : TimeRecord) (event : DomainEvent) (db : DBState) :
    DBState × Except String Unit :=
  match tx with
  | TxOutcome.failBegin => (db, Except.error "failed to begin transaction")
  | TxOutcome.failRecordInsert => (db, Except.error "failed to save time record")
  | TxOutcome.failMarshal => (db, Except.error "failed to marshal event")
  | TxOutcome.failOutboxInsert => (db, Except.error "failed to save outbox event")
  | TxOutcome.failCommit => (db, Except.error "failed to commit transaction")
  | TxOutcome.commitOk =>
    ({ timeRecords := upsertTimeRecord record db.timeRecords
       outboxEvents := db.outboxEvents ++
         [{ id := outboxId, eventType := event.eventType, aggregateId := record.id,
            payload := event, createdAt := now, published := false,
            publishedAt := none, retryCount := 0, lastError := none }] },
     Except.ok ())

/-- The ORDER BY check_in_at DESC relation of FindActiveByEmployeeID. -/
def checkInDesc (a b : TimeRecord) : Prop := b.checkInAt ≤ a.checkInAt

instance : DecidableRel checkInDesc :=
  fun a b => inferInstanceAs (Decidable (b.checkInAt ≤ a.checkInAt))

instance : IsTotal TimeRecord checkInDesc :=
  ⟨fun a b => Int.le_total b.checkInAt a.checkInAt⟩

instance : IsTrans TimeRecord checkInDesc :=
  ⟨fun _ _ _ hab hbc => Int.le_trans hbc hab⟩

/-- `FindActiveByEmployeeID`: SELECT WHERE employee_id = $1 AND
status = CHECKED_IN ORDER BY check_in_at DESC LIMIT 1; no rows gives none. -/
def findActiveByEmployeeID (db : DBState) (employeeId : String) : Option TimeRecord :=
  ((db.timeRecords.filter
      (fun r => r.employeeId == employeeId &&
        r.status == TimeRecordStatus.statusCheckedIn)).insertionSort
    checkInDesc).head?

/- ============== Check-in / check-out services (service.go) ============= -/

/-- The business errors of domain/errors surfaced by the two services. -/
inductive ServiceErr where
  | errEmployeeAlreadyCheckedIn
  | errDuplicateCheckIn
  | errNoActiveCheckInFound
  | errFromRecord (msg : String)
  | errSaveFailed (msg : String)
  deriving DecidableEq, Repr

/-- `CheckInService.CheckIn`: reject when an active record exists, build the
record and the EmployeeCheckedIn event, and persist both via SaveWithEvent.
Generated UUIDs arrive as `recId`, `evId`, `outboxId`. -/
def checkIn (now : Int) (recId evId outboxId : String) (tx : TxOutcome)
    (employeeId : String) (db : DBState) : DBState × Except ServiceErr TimeRecord :=
  match findActiveByEmployeeID db employeeId with
  | some _ => (db, Except.error ServiceErr.errEmployeeAlreadyCheckedIn)
  | none =>
    match newTimeRecord recId now employeeId with
    | Except.error msg => (db, Except.error (ServiceErr.errFromRecord msg))
    | Except.ok record =>
      let event := DomainEvent.checkedIn
        { header :=
            { eventId := evId, eventType := eventTypeEmployeeCheckedIn,
              version := 1, timestamp := now }
          employeeId := record.employeeId
          checkInAt := record.checkInAt
          recordId := record.id }
      match saveWithEvent outboxId now tx record event db with
      | (db2, Except.error msg) => (db2, Except.error (ServiceErr.errSaveFailed msg))
      | (db2, Except.ok _) => (db2, Except.ok record)

/-- `CheckOutService.CheckOut`: find the active record, reject duplicates
inside the configured window measured from the record's check-in time,
perform the record's CheckOut, build the EmployeeCheckedOut event and
persist both via SaveWithEvent. -/
def checkOut (dupWindowSec : Int) (now : Int) (evId outboxId : String)
    (tx : TxOutcome) (employeeId : String) (db : DBState) :
    DBState × Except ServiceErr TimeRecord :=
  match findActiveByEmployeeID db employeeId with
  | none => (db, Except.error ServiceErr.errNoActiveCheckInFound)
  | some record =>
    if now - record.checkInAt < dupWindowSec then
      (db, Except.error ServiceErr.errDuplicateCheckIn)
    else
      match record.checkOut now with
      | Except.error msg => (db, Except.error (ServiceErr.errFromRecord msg))
      | Except.ok record2 =>
        let event := DomainEvent.checkedOut
          { header :=
              { eventId := evId, eventType := eventTypeEmployeeCheckedOut,
                version := 1, timestamp := now }
            employeeId := record2.employeeId
            checkInAt := record2.checkInAt
            checkOutAt := now
            hoursWorked := record2.hoursWorked
            recordId := record2.id }
        match saveWithEvent outboxId now tx record2 event db with
        | (db2, Except.error msg) => (db2, Except.error (ServiceErr.errSaveFailed msg))
        | (db2, Except.ok _) => (db2, Except.ok record2)

/- ============== Outbox relay poll loop (main.go) ======================= -/

/-- One poll cycle of the outbox publisher: `pubOk id` is whether
`PublishRaw` succeeds for the row with that id, `errMsg` the error text
recorded on failure, `now` the publish timestamp, `limit` the fetch limit. -/
structure RelayTick where
  pubOk : String → Bool
  errMsg : String
  now : Int
  limit : Nat

/-- One relay cycle: claim a batch, then for each claimed row either mark it
published (publish succeeded) or increment its retry count. -/
def relayTick (p : RelayTick) (rows : List OutboxEvent) : List OutboxEvent :=
  (getUnpublishedEvents p.limit rows).foldl
    (fun d e =>
      if p.pubOk e.id then markAsPublished p.now e.id d
      else incrementRetryCount e.id p.errMsg d) rows

/-- Any finite sequence of relay cycles. -/
def relayRun (ps : List RelayTick) (rows : List OutboxEvent) : List OutboxEvent :=
  ps.foldl (fun d p => relayTick p d) rows

/- ============== Broker consumer (rabbitmq_consumer.go) ================= -/

/-- The two manual acknowledgement outcomes of `Consume` for one message:
`Ack(false)` or `Nack(false, true)` (reject and requeue). -/
inductive AckAction where
  | ack
  | nackRequeue
  deriving DecidableEq, Repr

/-- The per-delivery branch of the `Consume` loop: run the handler on the
body, ack on success, nack-with-requeue on error. Bodies are byte lists. -/
def processDelivery (handler : List Nat → Except String Unit) (body : List Nat) :
    AckAction :=
  match handler body with
  | Except.error _ => AckAction.nackRequeue
  | Except.ok _ => AckAction.ack

/-- `HandleCheckedOut`: unmarshal the body (the JSON decoder is the oracle
`decode`), fail fast on a malformed body, otherwise run the retry loop
around `RecordLaborCost` (whose per-call success is the oracle
`recordLaborCost`). -/
def handleCheckedOut (decode : List Nat → Option EmployeeCheckedOutEvent)
    (recordLaborCost : EmployeeCheckedOutEvent → Nat → Bool)
    (cfg : RetryConfig) (body : List Nat) : Except String Unit :=
  match decode body with
  | none => Except.error "failed to unmarshal event"
  | some ev =>
    if (retryExec (recordLaborCost ev) cfg.backoffMultiplier cfg.maxBackoff 0
        cfg.maxAttempts cfg.initialBackoff 0).1 then
      Except.ok ()
    else
      Except.error "failed after max attempts"

/- ===================== Sample data for witnesses ======================= -/

/-- A sample checked-out event. -/
def sampleCheckedOutEvent : EmployeeCheckedOutEvent :=
  { header :=
      { eventId := "ev1", eventType := eventTypeEmployeeCheckedOut,
        version := 1, timestamp := 100 }
    employeeId := "EMP001"
    checkInAt := 0
    checkOutAt := 100
    hoursWorked := 1 / 36
    recordId := "r1" }

/-- A sample unpublished checked-out outbox row. -/
def sampleOutboxRow : OutboxEvent :=
  { id := "e1", eventType := eventTypeEmployeeCheckedOut, aggregateId := "r1",
    payload := DomainEvent.checkedOut sampleCheckedOutEvent, createdAt := 5,
    published := false, publishedAt := none, retryCount := 0, lastError := none }

/-- A sample unpublished checked-in outbox row. -/
def sampleCheckedInRow : OutboxEvent :=
  { id := "e2", eventType := eventTypeEmployeeCheckedIn, aggregateId := "r1",
    payload := DomainEvent.checkedIn
      { header :=
          { eventId := "ev2", eventType := eventTypeEmployeeCheckedIn,
            version := 1, timestamp := 0 }
        employeeId := "EMP001"
        checkInAt := 0
        recordId := "r1" }
    createdAt := 0, published := false, publishedAt := none, retryCount := 0,
    lastError := none }

/-- A sample active time record. -/
def sampleRecord : TimeRecord :=
  { id := "r1", employeeId := "EMP001", checkInAt := 0, checkOutAt := none,
    status := TimeRecordStatus.statusCheckedIn, hoursWorked := 0 }

/-- A sample database with one active check-in and an empty outbox. -/
def sampleDB : DBState := { timeRecords := [sampleRecord], outboxEvents := [] }

theorem recordFailure_failureCount (now : Int) (cb : CircuitBreaker) :
    (recordFailure now cb).failureCount = cb.failureCount + 1 := by
  unfold recordFailure
  by_cases h : cb.failureThreshold ≤ cb.failureCount + 1 <;> simp [h]

theorem recordFailure_thresholds (now : Int) (cb : CircuitBreaker) :
    (recordFailure now cb).failureThreshold = cb.failureThreshold ∧
    (recordFailure now cb).successThreshold = cb.successThreshold ∧
    (recordFailure now cb).timeout = cb.timeout ∧
    (recordFailure now cb).successCount = 0 := by
  unfold recordFailure
  by_cases h : cb.failureThreshold ≤ cb.failureCount + 1 <;> simp [h]

theorem recordFailure_state_open (now : Int) (cb : CircuitBreaker)
    (h : cb.failureThreshold ≤ cb.failureCount + 1) :
    (recordFailure now cb).state = CircuitState.stateOpen := by
  unfold recordFailure
  simp [h]

theorem recordFailures_failureCount (ts : List Int) (cb : CircuitBreaker) :
    (recordFailures ts cb).failureCount = cb.failureCount + ts.length := by
  induction ts generalizing cb with
  | nil => simp [recordFailures]
  | cons t ts ih =>
    show (recordFailures ts (recordFailure t cb)).failureCount = _
    rw [ih, recordFailure_failureCount]
    simp
    omega

theorem recordFailures_thresholds (ts : List Int) (cb : CircuitBreaker) :
    (recordFailures ts cb).failureThreshold = cb.failureThreshold ∧
    (recordFailures ts cb).successThreshold = cb.successThreshold ∧
    (recordFailures ts cb).timeout = cb.timeout := by
  induction ts generalizing cb with
  | nil => simp [recordFailures]
  | cons t ts ih =>
    show (recordFailures ts (recordFailure t cb)).failureThreshold = _ ∧ _ ∧ _
    obtain ⟨h1, h2, h3, _⟩ := recordFailure_thresholds t cb
    obtain ⟨g1, g2, g3⟩ := ih (recordFailure t cb)
    exact ⟨g1.trans h1, g2.trans h2, g3.trans h3⟩

theorem recordFailures_successCount (ts : List Int) (cb : CircuitBreaker)
    (h : ts ≠ []) :
    (recordFailures ts cb).successCount = 0 := by
  induction ts generalizing cb with
  | nil => exact absurd rfl h
  | cons t ts ih =>
    show (recordFailures ts (recordFailure t cb)).successCount = 0
    cases ts with
    | nil =>
      exact (recordFailure_thresholds t cb).2.2.2
    | cons u us => exact ih (recordFailure t cb) (by simp)

theorem recordFailures_state_open (ts : List Int) (cb : CircuitBreaker)
    (hne : ts ≠ [])
    (h : cb.failureThreshold ≤ cb.failureCount + ts.length) :
    (recordFailures ts cb).state = CircuitState.stateOpen := by
  induction ts generalizing cb with
  | nil => exact absurd rfl hne
  | cons t ts ih =>
    show (recordFailures ts (recordFailure t cb)).state = _
    cases ts with
    | nil =>
      apply recordFailure_state_open
      simpa using h
    | cons u us =>
      apply ih (recordFailure t cb) (by simp)
      rw [recordFailure_failureCount, (recordFailure_thresholds t cb).1]
      simp at h ⊢
      omega

theorem recordSuccesses_closes : ∀ (n : Nat) (cb : CircuitBreaker),
    cb.state = CircuitState.stateHalf →
    cb.successCount + (n + 1) = cb.successThreshold →
    (recordSuccesses (n + 1) cb).state = CircuitState.stateClosed ∧
    (recordSuccesses (n + 1) cb).failureCount = 0 ∧
    (recordSuccesses (n + 1) cb).successCount = 0 := by
  intro n
  induction n with
  | zero =>
    intro cb hstate hcount
    show (recordSuccesses 0 (recordSuccess cb)).state = _ ∧ _ ∧ _
    simp only [recordSuccesses]
    unfold recordSuccess
    simp only [hstate, if_pos rfl]
    have : cb.successThreshold ≤ cb.successCount + 1 := by omega
    simp [this]
  | succ n ih =>
    intro cb hstate hcount
    have hstep : recordSuccesses (n + 1 + 1) cb = recordSuccesses (n + 1) (recordSuccess cb) := rfl
    have hlt : ¬ cb.successThreshold ≤ cb.successCount + 1 := by omega
    have heq : recordSuccess cb =
        { cb with failureCount := 0, successCount := cb.successCount + 1 } := by
      unfold recordSuccess
      simp [hstate, hlt]
    rw [hstep, heq]
    refine ih _ ?_ ?_
    · simpa using hstate
    · show cb.successCount + 1 + (n + 1) = cb.successThreshold
      omega

/-- C1: the claim says a single `RecordFailure` while HalfOpen immediately
returns the breaker to Open for every configured failure threshold. The code
disagrees: entering HalfOpen resets `failureCount` to 0, and `RecordFailure`
opens only once the count reaches `failureThreshold`; with threshold 2 a
breaker driven Closed → Open → HalfOpen stays HalfOpen after one failure. -/
theorem c1_halfOpen_failure_keeps_half :
    ((canExecute 40 (recordFailure 1 (recordFailure 0 (newCircuitBreaker 2 1 30)))).1).state =
      CircuitState.stateHalf ∧
    (recordFailure 41
      ((canExecute 40 (recordFailure 1 (recordFailure 0 (newCircuitBreaker 2 1 30)))).1)).state =
      CircuitState.stateHalf ∧
    (recordFailure 41
      ((canExecute 40 (recordFailure 1 (recordFailure 0 (newCircuitBreaker 2 1 30)))).1)).state ≠
      CircuitState.stateOpen := by
  decide

/-- C4: from Closed, `failureThreshold` consecutive `RecordFailure` calls open
the breaker; `CanExecute` then returns false until the reset timeout has
strictly elapsed since the last failure; the first call after elapsing returns
true and moves the breaker to HalfOpen; and `successThreshold` consecutive
`RecordSuccess` calls while HalfOpen close it with both counters cleared. -/
theorem c4_circuit_breaker_cycle (ft st : Nat) (rto : Int)
    (hft : 1 ≤ ft) (hst : 1 ≤ st)
    (ts : List Int) (hlen : ts.length = ft) :
    (recordFailures ts (newCircuitBreaker ft st rto)).state = CircuitState.stateOpen ∧
    (∀ now : Int,
      now - (recordFailures ts (newCircuitBreaker ft st rto)).lastFailureTime ≤ rto →
      canExecute now (recordFailures ts (newCircuitBreaker ft st rto)) =
        (recordFailures ts (newCircuitBreaker ft st rto), false)) ∧
    (∀ now : Int,
      rto < now - (recordFailures ts (newCircuitBreaker ft st rto)).lastFailureTime →
      (canExecute now (recordFailures ts (newCircuitBreaker ft st rto))).2 = true ∧
      (canExecute now (recordFailures ts (newCircuitBreaker ft st rto))).1.state =
        CircuitState.stateHalf ∧
      (recordSuccesses st
        (canExecute now (recordFailures ts (newCircuitBreaker ft st rto))).1).state =
        CircuitState.stateClosed ∧
      (recordSuccesses st
        (canExecute now (recordFailures ts (newCircuitBreaker ft st rto))).1).failureCount = 0 ∧
      (recordSuccesses st
        (canExecute now (recordFailures ts (newCircuitBreaker ft st rto))).1).successCount = 0) := by
  set cb0 := newCircuitBreaker ft st rto with hcb0
  have hne : ts ≠ [] := by
    intro h
    rw [h] at hlen
    simp at hlen
    omega
  have hth := recordFailures_thresholds ts cb0
  have hopen : (recordFailures ts cb0).state = CircuitState.stateOpen := by
    apply recordFailures_state_open ts cb0 hne
    simp [hcb0, newCircuitBreaker, hlen]
  have htimeout : (recordFailures ts cb0).timeout = rto := by
    rw [hth.2.2]
    rfl
  have hsc : (recordFailures ts cb0).successCount = 0 :=
    recordFailures_successCount ts cb0 hne
  have hsthr : (recordFailures ts cb0).successThreshold = st := by
    rw [hth.2.1]
    rfl
  refine ⟨hopen, ?_, ?_⟩
  · intro now hle
    unfold canExecute
    rw [hopen]
    simp only [htimeout]
    rw [if_neg (by omega)]
  · intro now hlt
    have hexec : canExecute now (recordFailures ts cb0) =
        ({ recordFailures ts cb0 with
            state := CircuitState.stateHalf, failureCount := 0 }, true) := by
      unfold canExecute
      rw [hopen]
      simp only [htimeout]
      rw [if_pos (by omega)]
    rw [hexec]
    refine ⟨rfl, rfl, ?_⟩
    obtain ⟨n, rfl⟩ : ∃ n, st = n + 1 := ⟨st - 1, by omega⟩
    exact recordSuccesses_closes n _ rfl (by simp [hsc, hsthr])

theorem stepN_drain : ∀ (n : Nat) (now maxWait : ℚ) (rl : RateLimiter),
    rl.lastRefillAt = now → rl.tokens ≤ rl.maxTokens → (n : ℚ) ≤ rl.tokens →
    (stepN n now maxWait rl).1 =
      { tokens := rl.tokens - n, maxTokens := rl.maxTokens,
        refillRate := rl.refillRate, lastRefillAt := now } ∧
    ∀ s ∈ (stepN n now maxWait rl).2, s = WaitStep.granted 0 := by
  intro n
  induction n with
  | zero =>
    intro now maxWait rl hlast _ _
    obtain ⟨t, M, rr, l⟩ := rl
    simp only at hlast
    subst hlast
    constructor
    · simp [stepN]
    · intro s hs
      simp [stepN] at hs
  | succ n ih =>
    intro now maxWait rl hlast hle hcnt
    obtain ⟨t, M, rr, l⟩ := rl
    simp only at hlast hle hcnt
    subst hlast
    have hn : (0 : ℚ) ≤ (n : ℚ) := Nat.cast_nonneg n
    have hone : (1 : ℚ) ≤ t := by
      push_cast at hcnt
      linarith
    have hstep : waitForTokenStep l maxWait (RateLimiter.mk t M rr l) =
        (RateLimiter.mk (t - 1) M rr l, WaitStep.granted 0) := by
      simp [waitForTokenStep, min_eq_left hle, hone]
    have hrec := ih l maxWait (RateLimiter.mk (t - 1) M rr l)
      rfl (by simp only; linarith) (by simp only; push_cast at hcnt ⊢; linarith)
    constructor
    · show (stepN n l maxWait (waitForTokenStep l maxWait (RateLimiter.mk t M rr l)).1).1 = _
      rw [hstep]
      simp only
      rw [hrec.1]
      simp only [RateLimiter.mk.injEq]
      refine ⟨by push_cast; ring, trivial, trivial, trivial⟩
    · intro s hs
      simp only [stepN] at hs
      rw [hstep] at hs
      rcases List.mem_cons.mp hs with h | h
      · simp at h
        simp [h]
      · exact hrec.2 s h

/-- C3 counterexample: the claim says the over-capacity call blocks for
exactly the computed token-deficit duration. For a fresh limiter of capacity
2 drained by 2 immediate calls, the computed duration is 30 s, but the code
sleeps `waitDuration + 100ms`, i.e. 30.1 s, before retrying. -/
theorem c3_exact_block_duration_counterexample :
    (waitForTokenStep 0 40 ((stepN 2 0 40 (newRateLimiter 2 0)).1)).2 =
      WaitStep.sleepRetry 30 (301 / 10) 10 ∧
    (301 / 10 : ℚ) ≠ 30 := by
  constructor
  · norm_num [stepN, waitForTokenStep, newRateLimiter]
  · norm_num

set_option maxHeartbeats 2000000 in
theorem waitForToken_rejected (fuel : Nat) (now maxWait : ℚ) (rl rl2 : RateLimiter)
    (req mw : ℚ)
    (h : waitForTokenStep now maxWait rl = (rl2, WaitStep.rejected req mw)) :
    waitForToken (fuel + 1) now maxWait rl = (rl2, 0, false) := by
  rw [waitForToken, h]

theorem waitForToken_sleep (fuel : Nat) (now maxWait : ℚ) (rl rl2 : RateLimiter)
    (w s budget : ℚ)
    (h : waitForTokenStep now maxWait rl = (rl2, WaitStep.sleepRetry w s budget)) :
    waitForToken (fuel + 1) now maxWait rl =
      ((waitForToken fuel (now + s) budget rl2).1,
        s + (waitForToken fuel (now + s) budget rl2).2.1,
        (waitForToken fuel (now + s) budget rl2).2.2) := by
  rw [waitForToken, h]

/-- C3 (amended): for a fresh RateLimiter of capacity c, the c immediate
calls each succeed with zero wait, draining the bucket; the next call either
blocks for the computed token-deficit duration plus the 100 ms buffer and
retries with the remaining budget `maxWait - waitDuration` when the computed
duration fits within maxWait, or fails without blocking when it exceeds
maxWait. -/
theorem c3_rate_limiter_amended (c : Nat) (hc : 1 ≤ c) (now maxWait w : ℚ)
    (hw : w = 60 / (c : ℚ)) :
    (∀ s ∈ (stepN c now maxWait (newRateLimiter c now)).2, s = WaitStep.granted 0) ∧
    (stepN c now maxWait (newRateLimiter c now)).1.tokens = 0 ∧
    (maxWait < w →
      (waitForTokenStep now maxWait (stepN c now maxWait (newRateLimiter c now)).1).2 =
        WaitStep.rejected w maxWait ∧
      ∀ fuel : Nat,
        waitForToken (fuel + 1) now maxWait (stepN c now maxWait (newRateLimiter c now)).1 =
          ((stepN c now maxWait (newRateLimiter c now)).1, 0, false)) ∧
    (w ≤ maxWait →
      (waitForTokenStep now maxWait (stepN c now maxWait (newRateLimiter c now)).1).2 =
        WaitStep.sleepRetry w (w + 1 / 10) (maxWait - w) ∧
      ∀ fuel : Nat,
        waitForToken (fuel + 1) now maxWait (stepN c now maxWait (newRateLimiter c now)).1 =
          ((waitForToken fuel (now + (w + 1 / 10)) (maxWait - w)
              (stepN c now maxWait (newRateLimiter c now)).1).1,
            (w + 1 / 10) +
              (waitForToken fuel (now + (w + 1 / 10)) (maxWait - w)
                (stepN c now maxWait (newRateLimiter c now)).1).2.1,
            (waitForToken fuel (now + (w + 1 / 10)) (maxWait - w)
              (stepN c now maxWait (newRateLimiter c now)).1).2.2)) := by
  subst hw
  have hc0 : (0 : ℚ) < (c : ℚ) := by
    have h1 : (1 : ℚ) ≤ (c : ℚ) := by exact_mod_cast hc
    linarith
  have hdr := stepN_drain c now maxWait (newRateLimiter c now) rfl
    (by simp [newRateLimiter]) (by simp [newRateLimiter])
  have hdrained : (stepN c now maxWait (newRateLimiter c now)).1 =
      RateLimiter.mk 0 (c : ℚ) ((c : ℚ) / 60) now := by
    rw [hdr.1]
    simp [newRateLimiter]
  have hstep : waitForTokenStep now maxWait (RateLimiter.mk 0 (c : ℚ) ((c : ℚ) / 60) now) =
      (RateLimiter.mk 0 (c : ℚ) ((c : ℚ) / 60) now,
        if maxWait < 60 / (c : ℚ) then WaitStep.rejected (60 / (c : ℚ)) maxWait
        else WaitStep.sleepRetry (60 / (c : ℚ)) (60 / (c : ℚ) + 1 / 10)
          (maxWait - 60 / (c : ℚ))) := by
    unfold waitForTokenStep
    simp only [sub_self, zero_mul, add_zero, min_eq_left (le_of_lt hc0)]
    rw [if_neg (by norm_num : ¬ (1 : ℚ) ≤ 0)]
    simp only [sub_zero, one_div_div]
    split_ifs with h
    · rfl
    · rfl
  refine ⟨hdr.2, by rw [hdrained], ?_, ?_⟩
  · intro hlt
    have h2 : waitForTokenStep now maxWait (RateLimiter.mk 0 (c : ℚ) ((c : ℚ) / 60) now) =
        (RateLimiter.mk 0 (c : ℚ) ((c : ℚ) / 60) now,
          WaitStep.rejected (60 / (c : ℚ)) maxWait) := by
      rw [hstep, if_pos hlt]
    constructor
    · rw [hdrained, h2]
    · intro fuel
      rw [hdrained]
      exact waitForToken_rejected fuel now maxWait _ _ _ _ h2
  · intro hle
    have h2 : waitForTokenStep now maxWait (RateLimiter.mk 0 (c : ℚ) ((c : ℚ) / 60) now) =
        (RateLimiter.mk 0 (c : ℚ) ((c : ℚ) / 60) now,
          WaitStep.sleepRetry (60 / (c : ℚ)) (60 / (c : ℚ) + 1 / 10)
            (maxWait - 60 / (c : ℚ))) := by
      rw [hstep, if_neg (not_lt.mpr hle)]
    constructor
    · rw [hdrained, h2]
    · intro fuel
      rw [hdrained]
      exact waitForToken_sleep fuel now maxWait _ _ _ _ _ h2

set_option maxHeartbeats 1000000 in
theorem retryExec_succeeds (op : Nat → Bool) (mult : ℚ) (maxBackoff : Int) :
    ∀ (k calls r : Nat) (b s : Int),
    (∀ i, i < k → op (calls + i) = false) → op (calls + k) = true → k < r →
    retryExec op mult maxBackoff calls r b s =
      (true, s + backoffChainSum mult maxBackoff k b) := by
  intro k
  induction k with
  | zero =>
    intro calls r b s _ hsucc hlt
    obtain ⟨r0, rfl⟩ : ∃ r0, r = r0 + 1 := ⟨r - 1, by omega⟩
    have h0 : op calls = true := by simpa using hsucc
    simp [retryExec, h0, backoffChainSum]
  | succ k ih =>
    intro calls r b s hfail hsucc hlt
    obtain ⟨r0, rfl⟩ : ∃ r0, r = r0 + 1 := ⟨r - 1, by omega⟩
    have h0 : op calls = false := by simpa using hfail 0 (by omega)
    have hr0 : r0 ≠ 0 := by omega
    have hfail2 : ∀ i, i < k → op (calls + 1 + i) = false := by
      intro i hi
      have := hfail (i + 1) (by omega)
      simpa [Nat.add_assoc, Nat.add_comm 1 i] using this
    have hsucc2 : op (calls + 1 + k) = true := by
      have : calls + 1 + k = calls + (k + 1) := by omega
      rw [this]
      exact hsucc
    have hrec := ih (calls + 1) r0 (nextBackoff mult maxBackoff b) (s + b)
      hfail2 hsucc2 (by omega)
    show retryExec op mult maxBackoff calls (r0 + 1) b s = _
    rw [retryExec]
    simp only [h0, Bool.false_eq_true, if_false, if_neg hr0]
    rw [hrec]
    simp [backoffChainSum, add_assoc]

theorem retryExec_exhausts (op : Nat → Bool) (mult : ℚ) (maxBackoff : Int)
    (hop : ∀ i, op i = false) :
    ∀ (r calls : Nat) (b s : Int), (retryExec op mult maxBackoff calls r b s).1 = false := by
  intro r
  induction r with
  | zero =>
    intro calls b s
    simp [retryExec]
  | succ r ih =>
    intro calls b s
    rw [retryExec]
    simp only [hop calls, Bool.false_eq_true, if_false]
    by_cases h : r = 0
    · simp [h]
    · rw [if_neg h]
      exact ih (calls + 1) (nextBackoff mult maxBackoff b) (s + b)

/-- C5: for an operation failing exactly on the first maxAttempts - 1 calls
and succeeding on the next, the retry loop of HandleCheckedOut returns
success and the total time slept equals (hence is at least) the sum of the
backoff intervals actually incurred, each follow-up interval capped at
maxBackoff; for an operation failing on every call, the loop exhausts all
maxAttempts attempts and returns failure. -/
theorem c5_retry_executor (op op2 : Nat → Bool) (m : Nat) (mult : ℚ)
    (maxBackoff b0 : Int) (hm : 1 ≤ m)
    (hfail : ∀ i, i < m - 1 → op i = false)
    (hsucc : op (m - 1) = true)
    (hop2 : ∀ i, op2 i = false) :
    retryExec op mult maxBackoff 0 m b0 0 =
      (true, backoffChainSum mult maxBackoff (m - 1) b0) ∧
    (retryExec op2 mult maxBackoff 0 m b0 0).1 = false := by
  constructor
  · have := retryExec_succeeds op mult maxBackoff (m - 1) 0 m b0 0
      (by intro i hi; simpa using hfail i hi) (by simpa using hsucc) (by omega)
    simpa using this
  · exact retryExec_exhausts op2 mult maxBackoff hop2 m 0 b0 0

theorem mem_getUnpublishedEvents (limit : Nat) (rows : List OutboxEvent)
    (e : OutboxEvent) (he : e ∈ getUnpublishedEvents limit rows) :
    e ∈ rows ∧ e.published = false ∧ e.eventType = eventTypeEmployeeCheckedOut := by
  unfold getUnpublishedEvents at he
  have h1 := List.mem_of_mem_take he
  rw [List.mem_insertionSort] at h1
  rw [List.mem_filter] at h1
  obtain ⟨hmem, hp⟩ := h1
  simp only [Bool.and_eq_true, Bool.not_eq_true', beq_iff_eq] at hp
  exact ⟨hmem, hp.1, hp.2⟩

theorem markAsPublished_getElem (t : Int) (eid : String) (rows : List OutboxEvent)
    (i : Nat) :
    (markAsPublished t eid rows)[i]? = (rows[i]?).map (fun e =>
      if e.id = eid then { e with published := true, publishedAt := some t } else e) := by
  simp [markAsPublished]

theorem incrementRetryCount_getElem (eid msg : String) (rows : List OutboxEvent)
    (i : Nat) :
    (incrementRetryCount eid msg rows)[i]? = (rows[i]?).map (fun e =>
      if e.id = eid then
        { e with retryCount := e.retryCount + 1, lastError := some msg }
      else e) := by
  simp [incrementRetryCount]

theorem markAsPublished_map_id (t : Int) (eid : String) (rows : List OutboxEvent) :
    (markAsPublished t eid rows).map OutboxEvent.id = rows.map OutboxEvent.id := by
  unfold markAsPublished
  rw [List.map_map]
  apply List.map_congr_left
  intro e _
  by_cases h : e.id = eid <;> simp [h]

theorem incrementRetryCount_map_id (eid msg : String) (rows : List OutboxEvent) :
    (incrementRetryCount eid msg rows).map OutboxEvent.id = rows.map OutboxEvent.id := by
  unfold incrementRetryCount
  rw [List.map_map]
  apply List.map_congr_left
  intro e _
  by_cases h : e.id = eid <;> simp [h]

/-- C7: for every outbox store state and every limit, the claim query
returns at most `limit` rows, each drawn from the store, unpublished and of
the (hard-coded) EmployeeCheckedOut type, sorted oldest-created-first. -/
theorem c7_claim_batch_shape (rows : List OutboxEvent) (limit : Nat) :
    (getUnpublishedEvents limit rows).length ≤ limit ∧
    (∀ e, e ∈ getUnpublishedEvents limit rows →
      e ∈ rows ∧ e.published = false ∧ e.eventType = eventTypeEmployeeCheckedOut) ∧
    List.Sorted createdBefore (getUnpublishedEvents limit rows) := by
  refine ⟨?_, ?_, ?_⟩
  · unfold getUnpublishedEvents
    exact List.length_take_le limit _
  · intro e he
    exact mem_getUnpublishedEvents limit rows e he
  · unfold getUnpublishedEvents
    exact List.Pairwise.sublist (List.take_sublist _ _)
      (List.sorted_insertionSort createdBefore _)

/-- C8: the outbox mutators preserve the row invariants: both UPDATEs keep
every row (same length, same id, type, payload and creation time per
position); MarkAsPublished never reverts a published row to unpublished and
does not touch retry counts; IncrementRetryCount changes only the retry
count and last-error fields, leaving published, published-at and the
eligibility-relevant fields unchanged; a committed SaveWithEvent only
appends one fresh unpublished row, and a failed one changes nothing. -/
theorem c8_outbox_invariants (rows : List OutboxEvent) (t : Int)
    (eid msg outboxId : String) (now : Int) (tx : TxOutcome)
    (record : TimeRecord) (event : DomainEvent) (db : DBState) :
    (markAsPublished t eid rows).length = rows.length ∧
    (incrementRetryCount eid msg rows).length = rows.length ∧
    (∀ (i : Nat) (e e2 : OutboxEvent),
      rows[i]? = some e → (markAsPublished t eid rows)[i]? = some e2 →
      e2.id = e.id ∧ e2.eventType = e.eventType ∧ e2.payload = e.payload ∧
      e2.createdAt = e.createdAt ∧ e2.retryCount = e.retryCount ∧
      (e.published = true → e2.published = true)) ∧
    (∀ (i : Nat) (e e2 : OutboxEvent),
      rows[i]? = some e → (incrementRetryCount eid msg rows)[i]? = some e2 →
      e2.id = e.id ∧ e2.eventType = e.eventType ∧ e2.payload = e.payload ∧
      e2.createdAt = e.createdAt ∧ e2.published = e.published ∧
      e2.publishedAt = e.publishedAt) ∧
    (∀ db2, saveWithEvent outboxId now tx record event db = (db2, Except.ok ()) →
      ∃ row, db2.outboxEvents = db.outboxEvents ++ [row] ∧ row.published = false) ∧
    (∀ db2 err, saveWithEvent outboxId now tx record event db = (db2, Except.error err) →
      db2 = db) := by
  refine ⟨by simp [markAsPublished], by simp [incrementRetryCount], ?_, ?_, ?_, ?_⟩
  · intro i e e2 he he2
    rw [markAsPublished_getElem, he] at he2
    simp only [Option.map_some'] at he2
    injection he2 with he3
    subst he3
    by_cases h : e.id = eid <;> simp [h]
  · intro i e e2 he he2
    rw [incrementRetryCount_getElem, he] at he2
    simp only [Option.map_some'] at he2
    injection he2 with he3
    subst he3
    by_cases h : e.id = eid <;> simp [h]
  · intro db2 hok
    cases tx
    case commitOk =>
      refine ⟨{ id := outboxId, eventType := event.eventType, aggregateId := record.id,
                payload := event, createdAt := now, published := false,
                publishedAt := none, retryCount := 0, lastError := none }, ?_, rfl⟩
      have hdb2 : db2 = { timeRecords := upsertTimeRecord record db.timeRecords
                          outboxEvents := db.outboxEvents ++
                            [{ id := outboxId, eventType := event.eventType,
                               aggregateId := record.id, payload := event,
                               createdAt := now, published := false,
                               publishedAt := none, retryCount := 0,
                               lastError := none }] } := by
        simpa [saveWithEvent] using (congrArg Prod.fst hok).symm
      rw [hdb2]
    all_goals simp [saveWithEvent] at hok
  · intro db2 err herr
    cases tx
    case commitOk => simp [saveWithEvent] at herr
    all_goals
      simp [saveWithEvent, Prod.ext_iff] at herr
      simp [herr.1]

theorem upsertTimeRecord_mem (r : TimeRecord) (rs : List TimeRecord) :
    ∃ x ∈ upsertTimeRecord r rs, x.id = r.id ∧ x.status = r.status ∧
      x.checkOutAt = r.checkOutAt ∧ x.hoursWorked = r.hoursWorked := by
  unfold upsertTimeRecord
  by_cases h : rs.any (fun x => x.id == r.id)
  · rw [if_pos h]
    obtain ⟨x, hx, hid⟩ := List.any_eq_true.mp h
    have hid2 : x.id = r.id := by simpa using hid
    refine ⟨_, List.mem_map_of_mem _ hx, ?_⟩
    simp [hid2]
  · rw [if_neg h]
    exact ⟨r, by simp, rfl, rfl, rfl, rfl⟩

/-- C9: SaveWithEvent is atomic: on any error the returned state is exactly
the input state (neither the time-record write nor the outbox row
persists); on success the time-record table is the record's upsert, the
outbox gains exactly the one event row, and both writes are visible. -/
theorem c9_save_with_event_atomic (outboxId : String) (now : Int) (tx : TxOutcome)
    (record : TimeRecord) (event : DomainEvent) (db : DBState) :
    (∀ (db2 : DBState) (err : String),
      saveWithEvent outboxId now tx record event db = (db2, Except.error err) →
      db2 = db) ∧
    (∀ db2 : DBState,
      saveWithEvent outboxId now tx record event db = (db2, Except.ok ()) →
      db2.timeRecords = upsertTimeRecord record db.timeRecords ∧
      db2.outboxEvents = db.outboxEvents ++
        [{ id := outboxId, eventType := event.eventType, aggregateId := record.id,
           payload := event, createdAt := now, published := false,
           publishedAt := none, retryCount := 0, lastError := none }] ∧
      (∃ x ∈ db2.timeRecords, x.id = record.id ∧ x.status = record.status ∧
        x.checkOutAt = record.checkOutAt ∧ x.hoursWorked = record.hoursWorked) ∧
      (∃ row ∈ db2.outboxEvents, row.id = outboxId ∧ row.payload = event ∧
        row.published = false)) := by
  constructor
  · intro db2 err herr
    cases tx
    case commitOk => simp [saveWithEvent] at herr
    all_goals
      simp [saveWithEvent, Prod.ext_iff] at herr
      simp [herr.1]
  · intro db2 hok
    cases tx
    case commitOk =>
      have hdb2 : db2 =
          { timeRecords := upsertTimeRecord record db.timeRecords
            outboxEvents := db.outboxEvents ++
              [{ id := outboxId, eventType := event.eventType,
                 aggregateId := record.id, payload := event, createdAt := now,
                 published := false, publishedAt := none, retryCount := 0,
                 lastError := none }] } := by
        simpa [saveWithEvent] using (congrArg Prod.fst hok).symm
      subst hdb2
      refine ⟨rfl, rfl, ?_, ?_⟩
      · simpa using upsertTimeRecord_mem record db.timeRecords
      · refine ⟨{ id := outboxId, eventType := event.eventType,
                  aggregateId := record.id, payload := event, createdAt := now,
                  published := false, publishedAt := none, retryCount := 0,
                  lastError := none }, ?_, rfl, rfl, rfl⟩
        simp
    all_goals simp [saveWithEvent] at hok

/-- C2: a check-out request for an employee whose active check-in is more
recent than the configured duplicate window is rejected with the duplicate
error, and the returned state is exactly the input state: no outbox row has
been written and the time record is unchanged. -/
theorem c2_duplicate_checkout_rejected (dupWindowSec now : Int)
    (evId outboxId : String) (tx : TxOutcome) (employeeId : String)
    (db : DBState) (record : TimeRecord)
    (hfind : findActiveByEmployeeID db employeeId = some record)
    (hdup : now - record.checkInAt < dupWindowSec) :
    checkOut dupWindowSec now evId outboxId tx employeeId db =
      (db, Except.error ServiceErr.errDuplicateCheckIn) := by
  unfold checkOut
  rw [hfind]
  simp [hdup]

theorem markAsPublished_getElem_ne (t : Int) (eid : String) (rows : List OutboxEvent)
    (i : Nat) (x : OutboxEvent) (hx : rows[i]? = some x) (hne : x.id ≠ eid) :
    (markAsPublished t eid rows)[i]? = some x := by
  rw [markAsPublished_getElem, hx]
  simp [hne]

theorem incrementRetryCount_getElem_ne (eid msg : String) (rows : List OutboxEvent)
    (i : Nat) (x : OutboxEvent) (hx : rows[i]? = some x) (hne : x.id ≠ eid) :
    (incrementRetryCount eid msg rows)[i]? = some x := by
  rw [incrementRetryCount_getElem, hx]
  simp [hne]

theorem relayFold_preserves (p : RelayTick) :
    ∀ (evs rows : List OutboxEvent) (i : Nat) (x : OutboxEvent),
    rows[i]? = some x → (∀ e ∈ evs, e.id ≠ x.id) →
    (evs.foldl (fun d e =>
      if p.pubOk e.id then markAsPublished p.now e.id d
      else incrementRetryCount e.id p.errMsg d) rows)[i]? = some x := by
  intro evs
  induction evs with
  | nil => intro rows i x hx _; simpa using hx
  | cons e evs ih =>
    intro rows i x hx hne
    have hexe : e.id ≠ x.id := hne e (by simp)
    have hstep : (if p.pubOk e.id then markAsPublished p.now e.id rows
        else incrementRetryCount e.id p.errMsg rows)[i]? = some x := by
      by_cases hp : p.pubOk e.id
      · rw [if_pos hp]
        exact markAsPublished_getElem_ne p.now e.id rows i x hx (fun h => hexe h.symm)
      · rw [if_neg hp]
        exact incrementRetryCount_getElem_ne e.id p.errMsg rows i x hx (fun h => hexe h.symm)
    show (evs.foldl _ _)[i]? = some x
    exact ih _ i x hstep (fun e2 he2 => hne e2 (by simp [he2]))

theorem relayFold_map_id (p : RelayTick) :
    ∀ (evs rows : List OutboxEvent),
    ((evs.foldl (fun d e =>
      if p.pubOk e.id then markAsPublished p.now e.id d
      else incrementRetryCount e.id p.errMsg d) rows).map OutboxEvent.id) =
      rows.map OutboxEvent.id := by
  intro evs
  induction evs with
  | nil => intro rows; rfl
  | cons e evs ih =>
    intro rows
    rw [List.foldl_cons, ih]
    by_cases hp : p.pubOk e.id
    · rw [if_pos hp, markAsPublished_map_id]
    · rw [if_neg hp, incrementRetryCount_map_id]

theorem claimed_id_ne (rows : List OutboxEvent) (limit : Nat) (i : Nat)
    (x : OutboxEvent) (hnd : (rows.map OutboxEvent.id).Nodup)
    (hx : rows[i]? = some x) (hty : x.eventType ≠ eventTypeEmployeeCheckedOut) :
    ∀ e ∈ getUnpublishedEvents limit rows, e.id ≠ x.id := by
  intro e he heq
  obtain ⟨hmem, _, het⟩ := mem_getUnpublishedEvents limit rows e he
  obtain ⟨j, hj⟩ := List.mem_iff_getElem?.mp hmem
  have hilen : i < rows.length := by
    by_contra hge
    rw [List.getElem?_eq_none (by omega)] at hx
    exact Option.noConfusion hx
  have hmi : (rows.map OutboxEvent.id)[i]? = some x.id := by
    rw [List.getElem?_map, hx]
    rfl
  have hmj : (rows.map OutboxEvent.id)[j]? = some x.id := by
    rw [List.getElem?_map, hj]
    simp [heq]
  have hij : i = j := by
    apply List.getElem?_inj (by simpa using hilen) hnd
    rw [hmi, hmj]
  rw [← hij, hx] at hj
  injection hj with hj2
  rw [← hj2] at het
  exact hty het

theorem relayTick_preserves (p : RelayTick) (rows : List OutboxEvent) (i : Nat)
    (x : OutboxEvent) (hnd : (rows.map OutboxEvent.id).Nodup)
    (hx : rows[i]? = some x) (hty : x.eventType ≠ eventTypeEmployeeCheckedOut) :
    (relayTick p rows)[i]? = some x :=
  relayFold_preserves p (getUnpublishedEvents p.limit rows) rows i x hx
    (claimed_id_ne rows p.limit i x hnd hx hty)

theorem relayRun_preserves (ps : List RelayTick) :
    ∀ (rows : List OutboxEvent) (i : Nat) (x : OutboxEvent),
    (rows.map OutboxEvent.id).Nodup → rows[i]? = some x →
    x.eventType ≠ eventTypeEmployeeCheckedOut →
    (relayRun ps rows)[i]? = some x := by
  induction ps with
  | nil => intro rows i x _ hx _; simpa [relayRun] using hx
  | cons p ps ih =>
    intro rows i x hnd hx hty
    show (relayRun ps (relayTick p rows))[i]? = some x
    apply ih (relayTick p rows) i x
    · rw [relayTick]
      rw [relayFold_map_id]
      exact hnd
    · exact relayTick_preserves p rows i x hnd hx hty
    · exact hty

/-- C6: an outbox row of type EmployeeCheckedIn (as written by CheckIn via
SaveWithEvent) is never returned by GetUnpublishedEvents, whose query
filters on the EmployeeCheckedOut type only; consequently, for every
sequence of relay poll cycles, such a row is never touched by the relay:
it survives unchanged, its published flag false forever. Row ids are
assumed pairwise distinct (the column is the table's primary key). -/
theorem c6_checkedin_rows_never_published (rows : List OutboxEvent)
    (ps : List RelayTick) (i : Nat) (x : OutboxEvent)
    (hnd : (rows.map OutboxEvent.id).Nodup)
    (hx : rows[i]? = some x)
    (hty : x.eventType = eventTypeEmployeeCheckedIn) :
    (∀ limit : Nat, x ∉ getUnpublishedEvents limit rows) ∧
    (relayRun ps rows)[i]? = some x ∧
    (∀ (now : Int) (recId evId outboxId employeeId : String) (tx : TxOutcome)
       (db db2 : DBState) (rec : TimeRecord),
      checkIn now recId evId outboxId tx employeeId db = (db2, Except.ok rec) →
      ∃ row : OutboxEvent, db2.outboxEvents = db.outboxEvents ++ [row] ∧
        row.eventType = eventTypeEmployeeCheckedIn ∧ row.published = false) := by
  have htyne : x.eventType ≠ eventTypeEmployeeCheckedOut := by
    rw [hty]
    simp [eventTypeEmployeeCheckedIn, eventTypeEmployeeCheckedOut]
  refine ⟨?_, relayRun_preserves ps rows i x hnd hx htyne, ?_⟩
  · intro limit hmem
    exact htyne (mem_getUnpublishedEvents limit rows x hmem).2.2
  · intro now recId evId outboxId employeeId tx db db2 rec hok
    unfold checkIn at hok
    cases hfa : findActiveByEmployeeID db employeeId with
    | some r => rw [hfa] at hok; simp at hok
    | none =>
      rw [hfa] at hok
      by_cases hemp : employeeId = ""
      · rw [newTimeRecord, if_pos hemp] at hok
        simp at hok
      · rw [newTimeRecord, if_neg hemp] at hok
        cases tx
        · simp only [saveWithEvent] at hok
          rw [Prod.mk.injEq] at hok
          obtain ⟨hdb, -⟩ := hok
          refine ⟨{ id := outboxId
                    eventType := eventTypeEmployeeCheckedIn
                    aggregateId := recId
                    payload := DomainEvent.checkedIn
                      { header :=
                          { eventId := evId
                            eventType := eventTypeEmployeeCheckedIn
                            version := 1
                            timestamp := now }
                        employeeId := employeeId
                        checkInAt := now
                        recordId := recId }
                    createdAt := now
                    published := false
                    publishedAt := none
                    retryCount := 0
                    lastError := none }, ?_, rfl, rfl⟩
          rw [← hdb]
          rfl
        all_goals simp [saveWithEvent] at hok

/-- C10: the per-delivery branch of Consume acknowledges exactly when the
handler returns nil and negative-acknowledges with requeue exactly when it
returns an error; a body that fails to deserialize makes HandleCheckedOut
return an error immediately, so such a message takes the nack-with-requeue
path and is never acknowledged. -/
theorem c10_consume_ack_nack (handler : List Nat → Except String Unit)
    (body : List Nat) (decode : List Nat → Option EmployeeCheckedOutEvent)
    (recordLaborCost : EmployeeCheckedOutEvent → Nat → Bool) (cfg : RetryConfig)
    (body2 : List Nat) (hmal : decode body2 = none) :
    (processDelivery handler body = AckAction.ack ↔ handler body = Except.ok ()) ∧
    (processDelivery handler body = AckAction.nackRequeue ↔
      ∃ msg, handler body = Except.error msg) ∧
    handleCheckedOut decode recordLaborCost cfg body2 =
      Except.error "failed to unmarshal event" ∧
    processDelivery (handleCheckedOut decode recordLaborCost cfg) body2 =
      AckAction.nackRequeue := by
  have hmal2 : handleCheckedOut decode recordLaborCost cfg body2 =
      Except.error "failed to unmarshal event" := by
    unfold handleCheckedOut
    rw [hmal]
  refine ⟨?_, ?_, hmal2, ?_⟩
  · unfold processDelivery
    cases h : handler body with
    | error msg => simp
    | ok u => cases u; simp
  · unfold processDelivery
    cases h : handler body with
    | error msg => simp
    | ok u => cases u; simp
  · unfold processDelivery
    rw [hmal2]

theorem c2_duplicate_checkout_rejected_witness :
    checkOut 60 30 "ev" "ob" TxOutcome.commitOk "EMP001" sampleDB =
      (sampleDB, Except.error ServiceErr.errDuplicateCheckIn) :=
  c2_duplicate_checkout_rejected 60 30 "ev" "ob" TxOutcome.commitOk "EMP001"
    sampleDB sampleRecord rfl (by decide)

theorem c3_rate_limiter_amended_witness :
    (stepN 2 0 40 (newRateLimiter 2 0)).1.tokens = 0 ∧
    (waitForTokenStep 0 40 ((stepN 2 0 40 (newRateLimiter 2 0)).1)).2 =
      WaitStep.sleepRetry 30 (30 + 1 / 10) (40 - 30) :=
  ⟨(c3_rate_limiter_amended 2 (by norm_num) 0 40 30 (by norm_num)).2.1,
   ((c3_rate_limiter_amended 2 (by norm_num) 0 40 30 (by norm_num)).2.2.2
      (by norm_num)).1⟩

theorem c4_circuit_breaker_cycle_witness :
    (recordFailures [0, 1] (newCircuitBreaker 2 2 10)).state = CircuitState.stateOpen ∧
    (canExecute 12 (recordFailures [0, 1] (newCircuitBreaker 2 2 10))).2 = true ∧
    (recordSuccesses 2
      (canExecute 12 (recordFailures [0, 1] (newCircuitBreaker 2 2 10))).1).state =
      CircuitState.stateClosed :=
  ⟨(c4_circuit_breaker_cycle 2 2 10 (by norm_num) (by norm_num) [0, 1] rfl).1,
   ((c4_circuit_breaker_cycle 2 2 10 (by norm_num) (by norm_num) [0, 1] rfl).2.2
      12 (by decide)).1,
   ((c4_circuit_breaker_cycle 2 2 10 (by norm_num) (by norm_num) [0, 1] rfl).2.2
      12 (by decide)).2.2.1⟩

theorem c5_retry_executor_witness :
    retryExec (fun i => decide (i = 2)) 2 30 0 3 20 0 =
      (true, backoffChainSum 2 30 2 20) ∧
    (retryExec (fun _ => false) 2 30 0 3 20 0).1 = false :=
  c5_retry_executor (fun i => decide (i = 2)) (fun _ => false) 3 2 30 20
    (by norm_num)
    (by intro i hi; simp only [decide_eq_false_iff_not]; omega)
    (by rfl)
    (fun _ => rfl)

theorem c6_checkedin_rows_never_published_witness :
    (relayRun [⟨fun _ => true, "boom", 50, 10⟩] [sampleCheckedInRow])[0]? =
      some sampleCheckedInRow ∧
    sampleCheckedInRow ∉ getUnpublishedEvents 5 [sampleCheckedInRow] :=
  ⟨(c6_checkedin_rows_never_published [sampleCheckedInRow]
      [⟨fun _ => true, "boom", 50, 10⟩] 0 sampleCheckedInRow (by simp) rfl rfl).2.1,
   (c6_checkedin_rows_never_published [sampleCheckedInRow]
      [⟨fun _ => true, "boom", 50, 10⟩] 0 sampleCheckedInRow (by simp) rfl rfl).1 5⟩

theorem c7_claim_batch_shape_witness :
    (getUnpublishedEvents 1 [sampleOutboxRow]).length ≤ 1 ∧
    (sampleOutboxRow ∈ [sampleOutboxRow] ∧ sampleOutboxRow.published = false ∧
      sampleOutboxRow.eventType = eventTypeEmployeeCheckedOut) :=
  ⟨(c7_claim_batch_shape [sampleOutboxRow] 1).1,
   (c7_claim_batch_shape [sampleOutboxRow] 1).2.1 sampleOutboxRow (by
      simp [getUnpublishedEvents, sampleOutboxRow, List.insertionSort,
        List.orderedInsert, eventTypeEmployeeCheckedOut])⟩

theorem c8_outbox_invariants_witness :
    (markAsPublished 9 "e1" [sampleOutboxRow]).length = 1 ∧
    ({ sampleOutboxRow with published := true, publishedAt := some 9 } :
      OutboxEvent).payload = sampleOutboxRow.payload :=
  ⟨(c8_outbox_invariants [sampleOutboxRow] 9 "e1" "boom" "ob" 7 TxOutcome.commitOk
      sampleRecord (DomainEvent.checkedOut sampleCheckedOutEvent) sampleDB).1,
   ((c8_outbox_invariants [sampleOutboxRow] 9 "e1" "boom" "ob" 7 TxOutcome.commitOk
      sampleRecord (DomainEvent.checkedOut sampleCheckedOutEvent) sampleDB).2.2.1
      0 sampleOutboxRow
      { sampleOutboxRow with published := true, publishedAt := some 9 }
      rfl rfl).2.2.1⟩

theorem c9_save_with_event_atomic_witness :
    (saveWithEvent "ob" 7 TxOutcome.failCommit sampleRecord
       (DomainEvent.checkedOut sampleCheckedOutEvent) sampleDB).1 = sampleDB :=
  (c9_save_with_event_atomic "ob" 7 TxOutcome.failCommit sampleRecord
     (DomainEvent.checkedOut sampleCheckedOutEvent) sampleDB).1
    (saveWithEvent "ob" 7 TxOutcome.failCommit sampleRecord
       (DomainEvent.checkedOut sampleCheckedOutEvent) sampleDB).1
    "failed to commit transaction" rfl

theorem c10_consume_ack_nack_witness :
    processDelivery (fun _ => Except.ok ()) [] = AckAction.ack ∧
    processDelivery (handleCheckedOut (fun _ => none) (fun _ _ => true)
      newLaborCostReporterRetryConfig) [1] = AckAction.nackRequeue :=
  ⟨((c10_consume_ack_nack (fun _ => Except.ok ()) [] (fun _ => none)
      (fun _ _ => true) newLaborCostReporterRetryConfig [1] rfl).1).mpr rfl,
   (c10_consume_ack_nack (fun _ => Except.ok ()) [] (fun _ => none)
      (fun _ _ => true) newLaborCostReporterRetryConfig [1] rfl).2.2.2⟩
